import Mathlib

/-!
Verification development for the SymbiOS repository.

This file shallowly embeds the `PoSEVoting` Solidity contract
(`src/backend/blockchain/contracts/PoSEVoting.sol`) and the Kalman policy
estimator described in the specification, and proves or refutes the frozen
claims about them.

Modelling conventions:
- Ethereum addresses are modelled as `Nat`; `0` is the zero address.
- `uint256` values are modelled as `Nat`. Solidity 0.8 uses checked
  arithmetic, so arithmetic never wraps; the quantities involved here
  (stake totals, basis points, timestamps, tallies) stay far below `2^256`
  in any execution reachable through the contract's guarded entry points.
- Solidity mappings are total functions with the zero value as default,
  matching storage semantics: an absent proposal is the all-zero struct
  (hence `id = 0`, `status = Pending`, the enum's zero member).
- Reverting calls are modelled by `Except.error msg`, carrying the
  `require` message; a revert returns no state, which models the rollback
  of every storage write of the call.
- `block.timestamp` and `msg.sender` are explicit parameters `now`/`sender`.
- The governance-token `transfer`/`transferFrom` calls are external; their
  success is an explicit `transferOk : Bool` parameter, and the ordering of
  storage writes against those external calls inside `stake`/`unstake` is
  recorded in an explicit action trace.
-/

namespace PoSEVoting

/-- `enum ActionType` of the contract (zero member `SCALE_UP`). -/
inductive ActionType
  | SCALE_UP
  | SCALE_DOWN
  | RETUNE
  | ROLLBACK
  | EMERGENCY_STOP
  deriving DecidableEq, Repr

/-- `enum ProposalStatus` of the contract (zero member `Pending`). -/
inductive ProposalStatus
  | Pending
  | Approved
  | Rejected
  | Executed
  | Expired
  deriving DecidableEq, Repr

/-- `struct Proposal` of the contract. `actionData : bytes` is a byte list. -/
structure Proposal where
  id : Nat
  proposer : Nat
  actionType : ActionType
  actionData : List Nat
  votesFor : Nat
  votesAgainst : Nat
  createdAt : Nat
  deadline : Nat
  status : ProposalStatus
  omegaScore : Nat
  psiIndex : Nat
  betaAntifragile : Nat
  deriving DecidableEq, Repr

/-- The all-zero `Proposal`, the default value of the `proposals` mapping. -/
def defaultProposal : Proposal :=
  { id := 0, proposer := 0, actionType := ActionType.SCALE_UP, actionData := [],
    votesFor := 0, votesAgainst := 0, createdAt := 0, deadline := 0,
    status := ProposalStatus.Pending, omegaScore := 0, psiIndex := 0,
    betaAntifragile := 0 }

/-- `struct Vote` of the contract. -/
structure Vote where
  voter : Nat
  weight : Nat
  support : Bool
  timestamp : Nat
  deriving DecidableEq, Repr

/-- The all-zero `Vote`, the default value of the `votes` mapping. -/
def defaultVote : Vote :=
  { voter := 0, weight := 0, support := false, timestamp := 0 }

/-- The contract's storage. -/
structure State where
  proposals : Nat → Proposal
  votes : Nat → Nat → Vote
  hasVoted : Nat → Nat → Bool
  proposalCount : Nat
  minStakeToPropose : Nat
  quorumPercentage : Nat
  votingPeriod : Nat
  totalStaked : Nat
  stakes : Nat → Nat
  owner : Nat

/-- The events the contract can emit. -/
inductive Event
  | ProposalCreated (proposalId proposer : Nat) (actionType : ActionType)
      (omegaScore deadline : Nat)
  | VoteCast (proposalId voter : Nat) (support : Bool) (weight : Nat)
  | ProposalApproved (proposalId votesFor votesAgainst : Nat)
  | ProposalRejected (proposalId votesFor votesAgainst : Nat)
  | ProposalExecuted (proposalId executor : Nat)
  | Staked (staker amount : Nat)
  | Unstaked (staker amount : Nat)
  deriving DecidableEq, Repr

/-- Observable steps of a `stake`/`unstake` body, in statement order:
storage writes to the balance variables, external token calls, events. -/
inductive StakeAction
  | extTransferFrom (sender amount : Nat)
  | extTransfer (recipient amount : Nat)
  | writeStakes (addr newValue : Nat)
  | writeTotalStaked (newValue : Nat)
  | emitStaked (staker amount : Nat)
  | emitUnstaked (staker amount : Nat)
  deriving DecidableEq, Repr

/-- Is this step a write to `stakes`/`totalStaked`? -/
def StakeAction.isBalanceWrite : StakeAction → Bool
  | StakeAction.writeStakes _ _ => true
  | StakeAction.writeTotalStaked _ => true
  | _ => false

/-- Is this step an external governance-token call? -/
def StakeAction.isExternalCall : StakeAction → Bool
  | StakeAction.extTransferFrom _ _ => true
  | StakeAction.extTransfer _ _ => true
  | _ => false

/-- Every balance write in the trace occurs before every external call
(checks-effects-interactions ordering). -/
def writesBeforeExternalCalls : List StakeAction → Bool
  | [] => true
  | a :: rest =>
    if a.isExternalCall then rest.all (fun b => ! b.isBalanceWrite)
    else writesBeforeExternalCalls rest

/-- Every external call in the trace occurs before every balance write. -/
def externalCallsBeforeWrites : List StakeAction → Bool
  | [] => true
  | a :: rest =>
    if a.isBalanceWrite then rest.all (fun b => ! b.isExternalCall)
    else externalCallsBeforeWrites rest

/-- Point update of a two-level mapping. -/
def update2 {α : Type} (f : Nat → Nat → α) (i j : Nat) (v : α) : Nat → Nat → α :=
  Function.update f i (Function.update (f i) j v)

/-- The constructor: `constructor(_governanceToken, _minStakeToPropose,
_quorumPercentage, _votingPeriod)`; the deployer becomes the owner. -/
def deploy (governanceToken minStakeToPropose quorumPercentage votingPeriod
    sender : Nat) : Except String State :=
  if governanceToken = 0 then Except.error "Invalid token"
  else if quorumPercentage ≤ 10000 then
    Except.ok
      { proposals := fun _ => defaultProposal
        votes := fun _ _ => defaultVote
        hasVoted := fun _ _ => false
        proposalCount := 0
        minStakeToPropose := minStakeToPropose
        quorumPercentage := quorumPercentage
        votingPeriod := votingPeriod
        totalStaked := 0
        stakes := fun _ => 0
        owner := sender }
  else Except.error "Invalid quorum"

/-- `function stake(uint256 amount)`: requires `amount > 0`, performs the
external `transferFrom` and requires its success, then increments
`stakes[msg.sender]` and `totalStaked`, then emits `Staked`.  The returned
trace records the body's observable steps in statement order. -/
def stake (s : State) (sender amount : Nat) (transferOk : Bool) :
    Except String (State × List StakeAction × List Event) :=
  if 0 < amount then
    if transferOk then
      Except.ok
        ({ s with
            stakes := Function.update s.stakes sender (s.stakes sender + amount)
            totalStaked := s.totalStaked + amount },
         [StakeAction.extTransferFrom sender amount,
          StakeAction.writeStakes sender (s.stakes sender + amount),
          StakeAction.writeTotalStaked (s.totalStaked + amount),
          StakeAction.emitStaked sender amount],
         [Event.Staked sender amount])
    else Except.error "Transfer failed"
  else Except.error "Amount must be > 0"

/-- `function unstake(uint256 amount)`: requires `amount > 0` and
`stakes[msg.sender] >= amount`, decrements `stakes[msg.sender]` and
`totalStaked`, then performs the external `transfer` and requires its
success, then emits `Unstaked`. -/
def unstake (s : State) (sender amount : Nat) (transferOk : Bool) :
    Except String (State × List StakeAction × List Event) :=
  if 0 < amount then
    if amount ≤ s.stakes sender then
      if transferOk then
        Except.ok
          ({ s with
              stakes := Function.update s.stakes sender (s.stakes sender - amount)
              totalStaked := s.totalStaked - amount },
           [StakeAction.writeStakes sender (s.stakes sender - amount),
            StakeAction.writeTotalStaked (s.totalStaked - amount),
            StakeAction.extTransfer sender amount,
            StakeAction.emitUnstaked sender amount],
           [Event.Unstaked sender amount])
      else Except.error "Transfer failed"
    else Except.error "Insufficient stake"
  else Except.error "Amount must be > 0"

/-- `function propose(...)`: requires the proposer's stake to reach
`minStakeToPropose` and `omegaScore <= 1000`; assigns id `++proposalCount`,
deadline `block.timestamp + votingPeriod`, stores the proposal as `Pending`
and emits `ProposalCreated`; returns the id. -/
def propose (s : State) (sender : Nat) (actionType : ActionType)
    (actionData : List Nat) (omegaScore psiIndex betaAntifragile now : Nat) :
    Except String (State × List Event × Nat) :=
  if s.minStakeToPropose ≤ s.stakes sender then
    if omegaScore ≤ 1000 then
      Except.ok
        ({ s with
            proposalCount := s.proposalCount + 1
            proposals := Function.update s.proposals (s.proposalCount + 1)
              { id := s.proposalCount + 1, proposer := sender,
                actionType := actionType, actionData := actionData,
                votesFor := 0, votesAgainst := 0, createdAt := now,
                deadline := now + s.votingPeriod,
                status := ProposalStatus.Pending, omegaScore := omegaScore,
                psiIndex := psiIndex, betaAntifragile := betaAntifragile } },
         [Event.ProposalCreated (s.proposalCount + 1) sender actionType
            omegaScore (now + s.votingPeriod)],
         s.proposalCount + 1)
    else Except.error "Invalid omega score"
  else Except.error "Insufficient stake"

/-- `function vote(uint256 proposalId, bool support)`: requires, in order,
an existing proposal (`id != 0`), `Pending` status, `block.timestamp <
deadline`, that the sender has not voted, and a positive stake; records the
vote, marks the sender as having voted, adds the sender's stake to the
chosen tally, and emits `VoteCast`. -/
def vote (s : State) (sender proposalId : Nat) (support : Bool) (now : Nat) :
    Except String (State × List Event) :=
  let proposal := s.proposals proposalId
  if proposal.id = 0 then Except.error "Proposal not found"
  else if proposal.status = ProposalStatus.Pending then
    if now < proposal.deadline then
      if s.hasVoted proposalId sender then Except.error "Already voted"
      else if 0 < s.stakes sender then
        let weight := s.stakes sender
        Except.ok
          ({ s with
              votes := update2 s.votes proposalId sender
                { voter := sender, weight := weight, support := support,
                  timestamp := now }
              hasVoted := update2 s.hasVoted proposalId sender true
              proposals := Function.update s.proposals proposalId
                (if support then
                  { proposal with votesFor := proposal.votesFor + weight }
                 else
                  { proposal with votesAgainst := proposal.votesAgainst + weight }) },
           [Event.VoteCast proposalId sender support weight])
      else Except.error "No voting power"
    else Except.error "Voting ended"
  else Except.error "Not pending"

/-- `function finalize(uint256 proposalId)`: requires an existing proposal,
`Pending` status and `block.timestamp >= deadline`.  With
`requiredQuorum = totalStaked * quorumPercentage / 10000`: below quorum the
status becomes `Expired` (no event is emitted on this path); otherwise the
status becomes `Approved` with a `ProposalApproved` event if
`votesFor > votesAgainst`, else `Rejected` with a `ProposalRejected` event. -/
def finalize (s : State) (proposalId now : Nat) :
    Except String (State × List Event) :=
  let proposal := s.proposals proposalId
  if proposal.id = 0 then Except.error "Proposal not found"
  else if proposal.status = ProposalStatus.Pending then
    if proposal.deadline ≤ now then
      if proposal.votesFor + proposal.votesAgainst <
          s.totalStaked * s.quorumPercentage / 10000 then
        Except.ok
          ({ s with
              proposals := Function.update s.proposals proposalId
                { proposal with status := ProposalStatus.Expired } },
           [])
      else if proposal.votesAgainst < proposal.votesFor then
        Except.ok
          ({ s with
              proposals := Function.update s.proposals proposalId
                { proposal with status := ProposalStatus.Approved } },
           [Event.ProposalApproved proposalId proposal.votesFor
              proposal.votesAgainst])
      else
        Except.ok
          ({ s with
              proposals := Function.update s.proposals proposalId
                { proposal with status := ProposalStatus.Rejected } },
           [Event.ProposalRejected proposalId proposal.votesFor
              proposal.votesAgainst])
    else Except.error "Voting not ended"
  else Except.error "Not pending"

/-- `function markExecuted(uint256 proposalId)`: `onlyOwner`; requires an
existing proposal in `Approved` status, transitions it to `Executed` and
emits `ProposalExecuted`. -/
def markExecuted (s : State) (sender proposalId : Nat) :
    Except String (State × List Event) :=
  if sender = s.owner then
    let proposal := s.proposals proposalId
    if proposal.id = 0 then Except.error "Proposal not found"
    else if proposal.status = ProposalStatus.Approved then
      Except.ok
        ({ s with
            proposals := Function.update s.proposals proposalId
              { proposal with status := ProposalStatus.Executed } },
         [Event.ProposalExecuted proposalId sender])
    else Except.error "Not approved"
  else Except.error "Not owner"

/-- `function getQuorumThreshold()`. -/
def getQuorumThreshold (s : State) : Nat :=
  s.totalStaked * s.quorumPercentage / 10000

/-- `function getProposal(uint256 proposalId)`. -/
def getProposal (s : State) (proposalId : Nat) : Proposal :=
  s.proposals proposalId

/-- `function isApproved(uint256 proposalId)`. -/
def isApproved (s : State) (proposalId : Nat) : Bool :=
  (s.proposals proposalId).status = ProposalStatus.Approved

/-- `function getVotingPower(address voter)`. -/
def getVotingPower (s : State) (voter : Nat) : Nat :=
  s.stakes voter

/-- A staking call: which entry point, the caller, the amount, and whether
the external token transfer succeeds. -/
inductive StakeOp
  | stakeOp (sender amount : Nat) (transferOk : Bool)
  | unstakeOp (sender amount : Nat) (transferOk : Bool)
  deriving DecidableEq, Repr

/-- Execute one staking call; a reverting call leaves the state unchanged. -/
def applyStakeOp (s : State) : StakeOp → State
  | StakeOp.stakeOp sender amount transferOk =>
    match stake s sender amount transferOk with
    | Except.ok r => r.1
    | Except.error _ => s
  | StakeOp.unstakeOp sender amount transferOk =>
    match unstake s sender amount transferOk with
    | Except.ok r => r.1
    | Except.error _ => s

/-- Execute a sequence of staking calls. -/
def runStakeOps (s : State) (ops : List StakeOp) : State :=
  ops.foldl applyStakeOp s

/-- `totalStaked` matches the sum of `stakes` over every finite set of
addresses that contains all addresses with a nonzero stake (that is, over
"all addresses": any finite superset of the support gives the same sum). -/
def stakesInvariant (s : State) : Prop :=
  ∀ A : Finset Nat, (∀ a, s.stakes a ≠ 0 → a ∈ A) →
    s.totalStaked = ∑ a in A, s.stakes a

/-- The error message of a call, if it reverted. -/
def errorOf {α : Type} : Except String α → Option String
  | Except.error e => some e
  | Except.ok _ => none

/-- The end-to-end scenario-B state of the spec: proposal 1 is `Pending` with
`votesFor = 40`, `votesAgainst = 10`, deadline 100, under
`totalStaked = 100` and `quorumPercentage = 6700`. -/
def scenarioBState : State :=
  { proposals := Function.update (fun _ => defaultProposal) 1
      { defaultProposal with
          id := 1, proposer := 1, votesFor := 40, votesAgainst := 10,
          createdAt := 0, deadline := 100 }
    votes := fun _ _ => defaultVote
    hasVoted := fun _ _ => false
    proposalCount := 1
    minStakeToPropose := 1
    quorumPercentage := 6700
    votingPeriod := 100
    totalStaked := 100
    stakes := Function.update (fun _ => 0) 1 100
    owner := 9 }

/-- Like scenario B but with tallies 60/10: total votes 70 reach the quorum
threshold 67 and `votesFor > votesAgainst`, so `finalize` approves. -/
def approvableState : State :=
  { scenarioBState with
      proposals := Function.update (fun _ => defaultProposal) 1
        { defaultProposal with
            id := 1, proposer := 1, votesFor := 60, votesAgainst := 10,
            createdAt := 0, deadline := 100 } }

/-- A state whose proposal 1 is already `Approved` (as after a successful
`finalize` of `approvableState`). -/
def approvedState : State :=
  { scenarioBState with
      proposals := Function.update (fun _ => defaultProposal) 1
        { defaultProposal with
            id := 1, proposer := 1, votesFor := 60, votesAgainst := 10,
            createdAt := 0, deadline := 100,
            status := ProposalStatus.Approved } }

/-- The state the constructor produces for token 1, `minStakeToPropose = 0`,
`quorumPercentage = 6700`, `votingPeriod = 100`, deployed by address 9. -/
def deployedState : State :=
  { proposals := fun _ => defaultProposal
    votes := fun _ _ => defaultVote
    hasVoted := fun _ _ => false
    proposalCount := 0
    minStakeToPropose := 0
    quorumPercentage := 6700
    votingPeriod := 100
    totalStaked := 0
    stakes := fun _ => 0
    owner := 9 }

end PoSEVoting

namespace Estimator

/-- Modelled from the spec: the StateEstimator ("Kalman Policy Predictor")
implementation is not under `src/` — only its convergence documentation
(`src/backend/autonomy/CONVERGENCE_THEOREM.md`) is.  Following spec §4.2 and
that document: the belief vector `x ∈ R^5` tracks the state against a target
`x*`; on each observation `z(t)` the innovation is `y(t) = z(t) - x(t)` and
the update is `x(t+1) = x(t) + K(t)·y(t)` with a diagonal gain `K(t)`,
`0 ≺ K(t) ≺ I` enforced by construction.  Components are rationals; the gain
sequence is an explicit parameter constrained in the theorems. -/
def estimate (K : Nat → Fin 5 → ℚ) (z : Nat → Fin 5 → ℚ) (x0 : Fin 5 → ℚ) :
    Nat → Fin 5 → ℚ
  | 0 => x0
  | t + 1 => fun i =>
      estimate K z x0 t i + K t i * (z t i - estimate K z x0 t i)

/-- Sup norm on the 5-dimensional state space. -/
def supNorm (v : Fin 5 → ℚ) : ℚ :=
  max |v 0| (max |v 1| (max |v 2| (max |v 3| (max |v 4| 0))))

/-- Constant diagonal gain 1/2 (within the spec's `0 ≺ K ≺ I` band). -/
def constGain : Nat → Fin 5 → ℚ := fun _ _ => 1 / 2

/-- Constant measurement stream: every component of every observation is 1. -/
def onesMeasurement : Nat → Fin 5 → ℚ := fun _ _ => 1

/-- The zero vector. -/
def zeroVec : Fin 5 → ℚ := fun _ => 0

/-- The all-ones vector. -/
def oneVec : Fin 5 → ℚ := fun _ => 1

end Estimator

namespace PoSEVoting

/-! ## Inversion lemmas: what a successful call implies -/

/-- A successful `vote` implies all its guards held and determines the new
state and the emitted events. -/
lemma vote_ok_inv {s : State} {sender pid : Nat} {support : Bool} {now : Nat}
    {s2 : State} {evs : List Event}
    (h : vote s sender pid support now = Except.ok (s2, evs)) :
    (s.proposals pid).id ≠ 0 ∧
    (s.proposals pid).status = ProposalStatus.Pending ∧
    now < (s.proposals pid).deadline ∧
    s.hasVoted pid sender = false ∧
    0 < s.stakes sender ∧
    s2 = { s with
      votes := update2 s.votes pid sender
        { voter := sender, weight := s.stakes sender, support := support,
          timestamp := now }
      hasVoted := update2 s.hasVoted pid sender true
      proposals := Function.update s.proposals pid
        (if support then
          { s.proposals pid with
              votesFor := (s.proposals pid).votesFor + s.stakes sender }
         else
          { s.proposals pid with
              votesAgainst := (s.proposals pid).votesAgainst + s.stakes sender }) } ∧
    evs = [Event.VoteCast pid sender support (s.stakes sender)] := by
  simp only [vote] at h
  split at h
  · exact Except.noConfusion h
  · split at h
    · split at h
      · split at h
        · exact Except.noConfusion h
        · split at h
          · simp only [Except.ok.injEq, Prod.mk.injEq] at h
            obtain ⟨h1, h2⟩ := h
            refine ⟨by assumption, by assumption, by assumption, ?_, by assumption,
              h1.symm, h2.symm⟩
            simpa using (by assumption : ¬ s.hasVoted pid sender = true)
          · exact Except.noConfusion h
      · exact Except.noConfusion h
    · exact Except.noConfusion h

/-- A successful `finalize` implies all its guards held and determines the
new state and events in each of the three resolution branches. -/
lemma finalize_ok_inv {s : State} {pid now : Nat} {s2 : State} {evs : List Event}
    (h : finalize s pid now = Except.ok (s2, evs)) :
    (s.proposals pid).id ≠ 0 ∧
    (s.proposals pid).status = ProposalStatus.Pending ∧
    (s.proposals pid).deadline ≤ now ∧
    ((s.proposals pid).votesFor + (s.proposals pid).votesAgainst <
        s.totalStaked * s.quorumPercentage / 10000 →
      s2 = { s with
              proposals := Function.update s.proposals pid
                { s.proposals pid with status := ProposalStatus.Expired } } ∧
      evs = []) ∧
    (¬ ((s.proposals pid).votesFor + (s.proposals pid).votesAgainst <
        s.totalStaked * s.quorumPercentage / 10000) →
      ((s.proposals pid).votesAgainst < (s.proposals pid).votesFor →
        s2 = { s with
                proposals := Function.update s.proposals pid
                  { s.proposals pid with status := ProposalStatus.Approved } } ∧
        evs = [Event.ProposalApproved pid (s.proposals pid).votesFor
                (s.proposals pid).votesAgainst]) ∧
      (¬ ((s.proposals pid).votesAgainst < (s.proposals pid).votesFor) →
        s2 = { s with
                proposals := Function.update s.proposals pid
                  { s.proposals pid with status := ProposalStatus.Rejected } } ∧
        evs = [Event.ProposalRejected pid (s.proposals pid).votesFor
                (s.proposals pid).votesAgainst])) := by
  simp only [finalize] at h
  split at h
  · exact Except.noConfusion h
  · split at h
    · split at h
      · split at h
        · simp only [Except.ok.injEq, Prod.mk.injEq] at h
          obtain ⟨h1, h2⟩ := h
          exact ⟨by assumption, by assumption, by assumption,
            fun _ => ⟨h1.symm, h2.symm⟩,
            fun hq => absurd (by assumption) hq⟩
        · split at h
          · simp only [Except.ok.injEq, Prod.mk.injEq] at h
            obtain ⟨h1, h2⟩ := h
            exact ⟨by assumption, by assumption, by assumption,
              fun hq => absurd hq (by assumption),
              fun _ => ⟨fun _ => ⟨h1.symm, h2.symm⟩,
                fun hm => absurd (by assumption) hm⟩⟩
          · simp only [Except.ok.injEq, Prod.mk.injEq] at h
            obtain ⟨h1, h2⟩ := h
            exact ⟨by assumption, by assumption, by assumption,
              fun hq => absurd hq (by assumption),
              fun _ => ⟨fun hm => absurd hm (by assumption),
                fun _ => ⟨h1.symm, h2.symm⟩⟩⟩
      · exact Except.noConfusion h
    · exact Except.noConfusion h

/-- A successful `markExecuted` implies all its guards held and determines
the new state and events. -/
lemma markExecuted_ok_inv {s : State} {sender pid : Nat} {s2 : State}
    {evs : List Event}
    (h : markExecuted s sender pid = Except.ok (s2, evs)) :
    sender = s.owner ∧
    (s.proposals pid).id ≠ 0 ∧
    (s.proposals pid).status = ProposalStatus.Approved ∧
    s2 = { s with
            proposals := Function.update s.proposals pid
              { s.proposals pid with status := ProposalStatus.Executed } } ∧
    evs = [Event.ProposalExecuted pid sender] := by
  simp only [markExecuted] at h
  split at h
  · split at h
    · exact Except.noConfusion h
    · split at h
      · simp only [Except.ok.injEq, Prod.mk.injEq] at h
        obtain ⟨h1, h2⟩ := h
        exact ⟨by assumption, by assumption, by assumption, h1.symm, h2.symm⟩
      · exact Except.noConfusion h
  · exact Except.noConfusion h

/-- A successful `stake` implies its guards held and determines the new
state, the action trace and the events. -/
lemma stake_ok_inv {s : State} {sender amount : Nat} {transferOk : Bool}
    {s2 : State} {tr : List StakeAction} {evs : List Event}
    (h : stake s sender amount transferOk = Except.ok (s2, tr, evs)) :
    0 < amount ∧ transferOk = true ∧
    s2 = { s with
      stakes := Function.update s.stakes sender (s.stakes sender + amount)
      totalStaked := s.totalStaked + amount } ∧
    tr = [StakeAction.extTransferFrom sender amount,
          StakeAction.writeStakes sender (s.stakes sender + amount),
          StakeAction.writeTotalStaked (s.totalStaked + amount),
          StakeAction.emitStaked sender amount] ∧
    evs = [Event.Staked sender amount] := by
  simp only [stake] at h
  split at h
  · split at h
    · simp only [Except.ok.injEq, Prod.mk.injEq] at h
      obtain ⟨h1, h2, h3⟩ := h
      exact ⟨by assumption, by simpa using (by assumption : transferOk = true),
        h1.symm, h2.symm, h3.symm⟩
    · exact Except.noConfusion h
  · exact Except.noConfusion h

/-- A successful `unstake` implies its guards held and determines the new
state, the action trace and the events. -/
lemma unstake_ok_inv {s : State} {sender amount : Nat} {transferOk : Bool}
    {s2 : State} {tr : List StakeAction} {evs : List Event}
    (h : unstake s sender amount transferOk = Except.ok (s2, tr, evs)) :
    0 < amount ∧ amount ≤ s.stakes sender ∧ transferOk = true ∧
    s2 = { s with
      stakes := Function.update s.stakes sender (s.stakes sender - amount)
      totalStaked := s.totalStaked - amount } ∧
    tr = [StakeAction.writeStakes sender (s.stakes sender - amount),
          StakeAction.writeTotalStaked (s.totalStaked - amount),
          StakeAction.extTransfer sender amount,
          StakeAction.emitUnstaked sender amount] ∧
    evs = [Event.Unstaked sender amount] := by
  simp only [unstake] at h
  split at h
  · split at h
    · split at h
      · simp only [Except.ok.injEq, Prod.mk.injEq] at h
        obtain ⟨h1, h2, h3⟩ := h
        exact ⟨by assumption, by assumption,
          by simpa using (by assumption : transferOk = true),
          h1.symm, h2.symm, h3.symm⟩
      · exact Except.noConfusion h
    · exact Except.noConfusion h
  · exact Except.noConfusion h

/-- A successful `propose` implies its guards held and determines the new
state, the events and the returned id. -/
lemma propose_ok_inv {s : State} {sender : Nat} {actionType : ActionType}
    {actionData : List Nat} {omegaScore psiIndex betaAntifragile now : Nat}
    {s2 : State} {evs : List Event} {newId : Nat}
    (h : propose s sender actionType actionData omegaScore psiIndex
          betaAntifragile now = Except.ok (s2, evs, newId)) :
    s.minStakeToPropose ≤ s.stakes sender ∧ omegaScore ≤ 1000 ∧
    newId = s.proposalCount + 1 ∧
    evs = [Event.ProposalCreated (s.proposalCount + 1) sender actionType
            omegaScore (now + s.votingPeriod)] := by
  simp only [propose] at h
  split at h
  · split at h
    · simp only [Except.ok.injEq, Prod.mk.injEq] at h
      obtain ⟨h1, h2, h3⟩ := h
      exact ⟨by assumption, by assumption, h3.symm, h2.symm⟩
    · exact Except.noConfusion h
  · exact Except.noConfusion h

/-! ## The claims -/

/-- C2: `getQuorumThreshold` returns `totalStaked * quorumPercentage / 10000`
(integer division) for every state, and returns 0 at zero total stake. -/
theorem getQuorumThreshold_formula (s : State) :
    getQuorumThreshold s = s.totalStaked * s.quorumPercentage / 10000 ∧
    getQuorumThreshold { s with totalStaked := 0 } = 0 := by
  exact ⟨rfl, by simp [getQuorumThreshold]⟩

/-- C1: `finalize` on an existing `Pending` proposal at or after its deadline
succeeds and resolves the status to `Expired` when
`votesFor + votesAgainst < totalStaked * quorumPercentage / 10000`, else to
`Approved` when `votesFor > votesAgainst` and to `Rejected` otherwise;
`finalize` before the deadline, or on a proposal not in `Pending`, fails. -/
theorem finalize_resolves_by_quorum_and_majority (s : State) (pid now : Nat) :
    ((s.proposals pid).id ≠ 0 → (s.proposals pid).status = ProposalStatus.Pending →
      (s.proposals pid).deadline ≤ now →
      ∃ s2 evs, finalize s pid now = Except.ok (s2, evs) ∧
        (s2.proposals pid).status =
          (if (s.proposals pid).votesFor + (s.proposals pid).votesAgainst <
                s.totalStaked * s.quorumPercentage / 10000 then ProposalStatus.Expired
           else if (s.proposals pid).votesAgainst < (s.proposals pid).votesFor then
             ProposalStatus.Approved
           else ProposalStatus.Rejected)) ∧
    (now < (s.proposals pid).deadline → ∀ r, finalize s pid now ≠ Except.ok r) ∧
    ((s.proposals pid).status ≠ ProposalStatus.Pending →
      ∀ r, finalize s pid now ≠ Except.ok r) := by
  refine ⟨?_, ?_, ?_⟩
  · intro hid hst hdl
    by_cases hq : (s.proposals pid).votesFor + (s.proposals pid).votesAgainst <
        s.totalStaked * s.quorumPercentage / 10000
    · have hres : finalize s pid now = Except.ok
          ({ s with
              proposals := Function.update s.proposals pid
                { s.proposals pid with status := ProposalStatus.Expired } }, []) := by
        simp only [finalize, if_neg hid, if_pos hst, if_pos hdl, if_pos hq]
      exact ⟨_, _, hres, by simp [Function.update_same, if_pos hq]⟩
    · by_cases hm : (s.proposals pid).votesAgainst < (s.proposals pid).votesFor
      · have hres : finalize s pid now = Except.ok
            ({ s with
                proposals := Function.update s.proposals pid
                  { s.proposals pid with status := ProposalStatus.Approved } },
             [Event.ProposalApproved pid (s.proposals pid).votesFor
               (s.proposals pid).votesAgainst]) := by
          simp only [finalize, if_neg hid, if_pos hst, if_pos hdl, if_neg hq, if_pos hm]
        exact ⟨_, _, hres, by simp [Function.update_same, if_neg hq, if_pos hm]⟩
      · have hres : finalize s pid now = Except.ok
            ({ s with
                proposals := Function.update s.proposals pid
                  { s.proposals pid with status := ProposalStatus.Rejected } },
             [Event.ProposalRejected pid (s.proposals pid).votesFor
               (s.proposals pid).votesAgainst]) := by
          simp only [finalize, if_neg hid, if_pos hst, if_pos hdl, if_neg hq, if_neg hm]
        exact ⟨_, _, hres, by simp [Function.update_same, if_neg hq, if_neg hm]⟩
  · intro hlt r h
    have hinv := finalize_ok_inv
      (show finalize s pid now = Except.ok (r.1, r.2) by rw [h])
    exact absurd hinv.2.2.1 (Nat.not_le.mpr hlt)
  · intro hst r h
    have hinv := finalize_ok_inv
      (show finalize s pid now = Except.ok (r.1, r.2) by rw [h])
    exact absurd hinv.2.1 hst

/-- Witness for C1 at the spec's scenario B: proposal 1 with tallies 40/10
under stake 100 and quorum 6700 finalizes at its deadline to `Expired`. -/
theorem finalize_resolves_by_quorum_and_majority_witness :
    (scenarioBState.proposals 1).id ≠ 0 ∧
    (scenarioBState.proposals 1).status = ProposalStatus.Pending ∧
    (scenarioBState.proposals 1).deadline ≤ 100 ∧
    ∃ s2 evs, finalize scenarioBState 1 100 = Except.ok (s2, evs) ∧
      (s2.proposals 1).status = ProposalStatus.Expired := by
  obtain ⟨s2, evs, hok, hst⟩ :=
    (finalize_resolves_by_quorum_and_majority scenarioBState 1 100).1
      (by decide) (by decide) (by decide)
  refine ⟨by decide, by decide, by decide, s2, evs, hok, ?_⟩
  rw [hst]; decide

/-- C9: the voting window is closed-open at the deadline: `vote` can succeed
only strictly before the proposal's deadline and otherwise (guards passing)
fails with "Voting ended"; `finalize` can succeed only at or after the
deadline and otherwise fails with "Voting not ended"; hence at no single
timestamp can both succeed on the same proposal. -/
theorem vote_finalize_deadline_exclusive (s : State) (sender pid : Nat)
    (support : Bool) (now : Nat) :
    (∀ r, vote s sender pid support now = Except.ok r →
      now < (s.proposals pid).deadline) ∧
    ((s.proposals pid).id ≠ 0 → (s.proposals pid).status = ProposalStatus.Pending →
      (s.proposals pid).deadline ≤ now →
      vote s sender pid support now = Except.error "Voting ended") ∧
    (∀ r, finalize s pid now = Except.ok r → (s.proposals pid).deadline ≤ now) ∧
    ((s.proposals pid).id ≠ 0 → (s.proposals pid).status = ProposalStatus.Pending →
      now < (s.proposals pid).deadline →
      finalize s pid now = Except.error "Voting not ended") ∧
    ¬ ((∃ r1, vote s sender pid support now = Except.ok r1) ∧
       (∃ r2, finalize s pid now = Except.ok r2)) := by
  have hvote : ∀ r, vote s sender pid support now = Except.ok r →
      now < (s.proposals pid).deadline := by
    intro r h
    exact (vote_ok_inv
      (show vote s sender pid support now = Except.ok (r.1, r.2) by rw [h])).2.2.1
  have hfin : ∀ r, finalize s pid now = Except.ok r →
      (s.proposals pid).deadline ≤ now := by
    intro r h
    exact (finalize_ok_inv
      (show finalize s pid now = Except.ok (r.1, r.2) by rw [h])).2.2.1
  refine ⟨hvote, ?_, hfin, ?_, ?_⟩
  · intro hid hst hdl
    simp only [vote, if_neg hid, if_pos hst, if_neg (Nat.not_lt.mpr hdl)]
  · intro hid hst hlt
    simp only [finalize, if_neg hid, if_pos hst, if_neg (Nat.not_le.mpr hlt)]
  · rintro ⟨⟨r1, h1⟩, ⟨r2, h2⟩⟩
    exact absurd (hfin r2 h2) (Nat.not_le.mpr (hvote r1 h1))

/-- Witness for C9 at scenario B: at the deadline (t = 100) `vote` fails with
"Voting ended", and strictly before it (t = 50) `finalize` fails with
"Voting not ended". -/
theorem vote_finalize_deadline_exclusive_witness :
    (scenarioBState.proposals 1).id ≠ 0 ∧
    (scenarioBState.proposals 1).status = ProposalStatus.Pending ∧
    (scenarioBState.proposals 1).deadline ≤ 100 ∧
    vote scenarioBState 1 1 true 100 = Except.error "Voting ended" ∧
    (50 : Nat) < (scenarioBState.proposals 1).deadline ∧
    finalize scenarioBState 1 50 = Except.error "Voting not ended" := by
  refine ⟨by decide, by decide, by decide, ?_, by decide, ?_⟩
  · exact (vote_finalize_deadline_exclusive scenarioBState 1 1 true 100).2.1
      (by decide) (by decide) (by decide)
  · exact (vote_finalize_deadline_exclusive scenarioBState 1 1 true 50).2.2.2.1
      (by decide) (by decide) (by decide)

/-- Counterexample to C3 as stated: after a successful first vote, a second
vote by the same voter on the same proposal made at the deadline fails with
"Voting ended" (the timestamp guard fires first), not with the claimed
`AlreadyVoted`. -/
theorem vote_repeat_after_deadline_cex :
    Option.map (fun r => errorOf (vote r.1 1 1 false 100))
        (vote scenarioBState 1 1 true 5).toOption = some (some "Voting ended") ∧
    "Voting ended" ≠ "Already voted" := by
  exact ⟨rfl, by decide⟩

/-- C3 (amended): a vote is recorded at most once per (proposal, voter)
pair: after a first successful vote the voter is marked as having voted, and
every subsequent vote call by the same voter on the same proposal fails —
with "Already voted" when made strictly before the deadline, and with
"Voting ended" otherwise.  The failed call returns no new state, so the
tallies are unchanged by it. -/
theorem vote_at_most_once_per_voter (s : State) (sender pid : Nat)
    (support : Bool) (now : Nat) (s2 : State) (evs : List Event)
    (h : vote s sender pid support now = Except.ok (s2, evs)) :
    s2.hasVoted pid sender = true ∧
    (∀ support2 now2,
      vote s2 sender pid support2 now2 =
        Except.error (if now2 < (s.proposals pid).deadline then "Already voted"
                      else "Voting ended")) := by
  obtain ⟨hid, hst, hlt, hnv, hstk, hs2, hevs⟩ := vote_ok_inv h
  subst hs2
  constructor
  · simp [update2, Function.update_same]
  · intro support2 now2
    by_cases hlt2 : now2 < (s.proposals pid).deadline
    · rw [if_pos hlt2]
      cases support <;>
        simp [vote, update2, Function.update_same, hid, hst, hlt2]
    · rw [if_neg hlt2]
      cases support <;>
        simp [vote, update2, Function.update_same, hid, hst, hlt2]

/-- Witness for C3's amended theorem: voter 1 votes successfully on
proposal 1 at t = 5; a second vote at t = 6 (before the deadline) fails with
"Already voted". -/
theorem vote_at_most_once_per_voter_witness :
    Option.map (fun r => (r.1.hasVoted 1 1, vote r.1 1 1 false 6))
        (vote scenarioBState 1 1 true 5).toOption =
      some (true, Except.error "Already voted") := by
  obtain ⟨s2, evs, hv⟩ :
      ∃ a b, vote scenarioBState 1 1 true 5 = Except.ok (a, b) := ⟨_, _, rfl⟩
  have h := vote_at_most_once_per_voter scenarioBState 1 1 true 5 s2 evs hv
  rw [hv]
  simp only [Except.toOption, Option.map, h.1, h.2 false 6]
  rfl

/-- Counterexample to C4 as stated: after a successful `markExecuted`, the
second call fails with the revert message "Not approved" — the contract has
no `AlreadyExecuted` error. -/
theorem markExecuted_second_error_cex :
    Option.map (fun r => errorOf (markExecuted r.1 9 1))
        (markExecuted approvedState 9 1).toOption = some (some "Not approved") ∧
    some "Not approved" ≠ some "AlreadyExecuted" := by
  exact ⟨rfl, by decide⟩

/-- C4 (amended): `markExecuted` succeeds exactly once per proposal: it
succeeds only when the proposal's status is `Approved`, transitioning it to
`Executed`, and a second `markExecuted` call on the same proposal fails with
"Not approved" (the status being no longer `Approved`). -/
theorem markExecuted_exactly_once (s : State) (sender pid : Nat)
    (s2 : State) (evs : List Event)
    (h : markExecuted s sender pid = Except.ok (s2, evs)) :
    (s.proposals pid).status = ProposalStatus.Approved ∧
    (s2.proposals pid).status = ProposalStatus.Executed ∧
    markExecuted s2 sender pid = Except.error "Not approved" ∧
    (∀ t : State, ∀ sd q : Nat,
      (t.proposals q).status ≠ ProposalStatus.Approved →
      ∀ r, markExecuted t sd q ≠ Except.ok r) := by
  obtain ⟨hown, hid, hst, hs2, hevs⟩ := markExecuted_ok_inv h
  subst hs2
  refine ⟨hst, ?_, ?_, ?_⟩
  · simp [Function.update_same]
  · simp [markExecuted, Function.update_same, hown, hid]
  · intro t sd q hne r hok
    have hinv := markExecuted_ok_inv
      (show markExecuted t sd q = Except.ok (r.1, r.2) by rw [hok])
    exact absurd hinv.2.2.1 hne

/-- Witness for C4's amended theorem: the owner marks the approved
proposal 1 executed; the status becomes `Executed` and a repeat call fails
with "Not approved". -/
theorem markExecuted_exactly_once_witness :
    Option.map (fun r => ((r.1.proposals 1).status, markExecuted r.1 9 1))
        (markExecuted approvedState 9 1).toOption =
      some (ProposalStatus.Executed, Except.error "Not approved") := by
  obtain ⟨s2, evs, hm⟩ :
      ∃ a b, markExecuted approvedState 9 1 = Except.ok (a, b) := ⟨_, _, rfl⟩
  have h := markExecuted_exactly_once approvedState 9 1 s2 evs hm
  rw [hm]
  simp only [Except.toOption, Option.map, h.2.1, h.2.2.1]

/-- Counterexample to C5 as stated: a `finalize` that resolved proposal 1 to
`Approved` is followed by a repeated `finalize`, which does fail — it
reverts with "Not pending" instead of being a no-op returning the resolved
status. -/
theorem finalize_repeat_fails_cex :
    Option.map (fun r => errorOf (finalize r.1 1 200))
        (finalize approvableState 1 150).toOption = some (some "Not pending") := by
  rfl

/-- C5 (amended): for every proposal whose status is no longer `Pending`, a
repeated `finalize` call fails: it reverts with "Not pending" (when the
proposal exists) and never succeeds, leaving all state unchanged (a revert
rolls back every write). -/
theorem finalize_nonpending_reverts (s : State) (pid now : Nat)
    (hst : (s.proposals pid).status ≠ ProposalStatus.Pending) :
    ((s.proposals pid).id ≠ 0 → finalize s pid now = Except.error "Not pending") ∧
    (∀ r, finalize s pid now ≠ Except.ok r) := by
  constructor
  · intro hid
    simp [finalize, hid, hst]
  · intro r hok
    have hinv := finalize_ok_inv
      (show finalize s pid now = Except.ok (r.1, r.2) by rw [hok])
    exact absurd hinv.2.1 hst

/-- Witness for C5's amended theorem at the already-approved proposal 1. -/
theorem finalize_nonpending_reverts_witness :
    (approvedState.proposals 1).status ≠ ProposalStatus.Pending ∧
    (approvedState.proposals 1).id ≠ 0 ∧
    finalize approvedState 1 200 = Except.error "Not pending" :=
  ⟨by decide, by decide,
    (finalize_nonpending_reverts approvedState 1 200 (by decide)).1 (by decide)⟩

/-- Counterexample to C6 as stated: in a successful `stake` execution the
balance mutation does NOT happen before the external token call — the trace
has the `transferFrom` first, so `writesBeforeExternalCalls` is false. -/
theorem stake_transfer_before_writes_cex :
    Option.map (fun r => writesBeforeExternalCalls r.2.1)
        (stake scenarioBState 1 5 true).toOption = some false := by
  rfl

/-- C6 (amended): `unstake` mutates `stakes[msg.sender]` and `totalStaked`
before its external `transfer` call (checks-effects-interactions), so a
reentrant callback during that transfer observes the already-updated
balances; `stake`, by contrast, performs the external `transferFrom` before
mutating the balances (both functions are additionally `nonReentrant` in the
source). -/
theorem stake_unstake_write_transfer_order (s : State) (sender amount : Nat)
    (transferOk : Bool) :
    (∀ s2 tr evs, unstake s sender amount transferOk = Except.ok (s2, tr, evs) →
      writesBeforeExternalCalls tr = true) ∧
    (∀ s2 tr evs, stake s sender amount transferOk = Except.ok (s2, tr, evs) →
      externalCallsBeforeWrites tr = true ∧ writesBeforeExternalCalls tr = false) := by
  constructor
  · intro s2 tr evs h
    obtain ⟨-, -, -, -, htr, -⟩ := unstake_ok_inv h
    subst htr
    rfl
  · intro s2 tr evs h
    obtain ⟨-, -, -, htr, -⟩ := stake_ok_inv h
    subst htr
    exact ⟨rfl, rfl⟩

/-- Witness for C6's amended theorem: a successful `unstake` trace has all
writes before the transfer; a successful `stake` trace has the transfer
first. -/
theorem stake_unstake_write_transfer_order_witness :
    Option.map (fun r => writesBeforeExternalCalls r.2.1)
        (unstake scenarioBState 1 5 true).toOption = some true ∧
    Option.map (fun r => externalCallsBeforeWrites r.2.1)
        (stake scenarioBState 1 5 true).toOption = some true := by
  obtain ⟨s2, tr2, ev2, hu⟩ :
      ∃ a b c, unstake scenarioBState 1 5 true = Except.ok (a, b, c) :=
    ⟨_, _, _, rfl⟩
  obtain ⟨s3, tr3, ev3, hs⟩ :
      ∃ a b c, stake scenarioBState 1 5 true = Except.ok (a, b, c) :=
    ⟨_, _, _, rfl⟩
  have h := stake_unstake_write_transfer_order scenarioBState 1 5 true
  rw [hu, hs]
  simp only [Except.toOption, Option.map, h.1 s2 tr2 ev2 hu, (h.2 s3 tr3 ev3 hs).1]
  exact ⟨trivial, trivial⟩

/-- Counterexample to C7 as stated: a `finalize` that expires proposal 1 for
lack of quorum changes its state to `Expired` but emits no event at all
(the contract declares no expiry event and the expired branch returns
without emitting). -/
theorem finalize_expired_emits_no_event_cex :
    Option.map (fun r => ((r.1.proposals 1).status, r.2))
        (finalize scenarioBState 1 100).toOption =
      some (ProposalStatus.Expired, ([] : List Event)) := by
  rfl

/-- C7 (amended): every successful state-changing call emits its
corresponding event — `propose` emits `ProposalCreated`, `vote` emits
`VoteCast`, a `finalize` that approves or rejects emits `ProposalApproved`
or `ProposalRejected`, `markExecuted` emits `ProposalExecuted`, and
`stake`/`unstake` emit `Staked`/`Unstaked` — except that a `finalize` that
expires the proposal for lack of quorum emits no event. -/
theorem state_changing_calls_emit_events (s : State) (sender pid amount now : Nat)
    (actionType : ActionType) (actionData : List Nat)
    (omegaScore psiIndex betaAntifragile : Nat) (support transferOk : Bool) :
    (∀ s2 evs newId, propose s sender actionType actionData omegaScore psiIndex
        betaAntifragile now = Except.ok (s2, evs, newId) →
      evs = [Event.ProposalCreated newId sender actionType omegaScore
              (now + s.votingPeriod)]) ∧
    (∀ s2 evs, vote s sender pid support now = Except.ok (s2, evs) →
      evs = [Event.VoteCast pid sender support (s.stakes sender)]) ∧
    (∀ s2 evs, finalize s pid now = Except.ok (s2, evs) →
      ((s2.proposals pid).status = ProposalStatus.Approved →
        evs = [Event.ProposalApproved pid (s.proposals pid).votesFor
                (s.proposals pid).votesAgainst]) ∧
      ((s2.proposals pid).status = ProposalStatus.Rejected →
        evs = [Event.ProposalRejected pid (s.proposals pid).votesFor
                (s.proposals pid).votesAgainst]) ∧
      ((s2.proposals pid).status = ProposalStatus.Expired → evs = [])) ∧
    (∀ s2 evs, markExecuted s sender pid = Except.ok (s2, evs) →
      evs = [Event.ProposalExecuted pid sender]) ∧
    (∀ s2 tr evs, stake s sender amount transferOk = Except.ok (s2, tr, evs) →
      evs = [Event.Staked sender amount]) ∧
    (∀ s2 tr evs, unstake s sender amount transferOk = Except.ok (s2, tr, evs) →
      evs = [Event.Unstaked sender amount]) := by
  refine ⟨?_, ?_, ?_, ?_, ?_, ?_⟩
  · intro s2 evs newId h
    obtain ⟨-, -, hnew, hevs⟩ := propose_ok_inv h
    rw [hevs, hnew]
  · intro s2 evs h
    exact (vote_ok_inv h).2.2.2.2.2.2
  · intro s2 evs h
    obtain ⟨hid, hst, hdl, hq1, hq2⟩ := finalize_ok_inv h
    by_cases hq : (s.proposals pid).votesFor + (s.proposals pid).votesAgainst <
        s.totalStaked * s.quorumPercentage / 10000
    · obtain ⟨hs2, hevs⟩ := hq1 hq
      subst hs2
      refine ⟨?_, ?_, fun _ => hevs⟩ <;>
        · intro habs
          simp [Function.update_same] at habs
    · obtain ⟨hap, hrej⟩ := hq2 hq
      by_cases hm : (s.proposals pid).votesAgainst < (s.proposals pid).votesFor
      · obtain ⟨hs2, hevs⟩ := hap hm
        subst hs2
        refine ⟨fun _ => hevs, ?_, ?_⟩ <;>
          · intro habs
            simp [Function.update_same] at habs
      · obtain ⟨hs2, hevs⟩ := hrej hm
        subst hs2
        refine ⟨?_, fun _ => hevs, ?_⟩ <;>
          · intro habs
            simp [Function.update_same] at habs
  · intro s2 evs h
    exact (markExecuted_ok_inv h).2.2.2.2
  · intro s2 tr evs h
    exact (stake_ok_inv h).2.2.2.2
  · intro s2 tr evs h
    exact (unstake_ok_inv h).2.2.2.2.2

/-- Witness for C7's amended theorem: an approving `finalize` emits exactly
`ProposalApproved`, and a successful `stake` emits exactly `Staked`. -/
theorem state_changing_calls_emit_events_witness :
    Option.map (fun r => ((r.1.proposals 1).status, r.2))
        (finalize approvableState 1 150).toOption =
      some (ProposalStatus.Approved, [Event.ProposalApproved 1 60 10]) ∧
    Option.map (fun r => r.2.2) (stake scenarioBState 2 7 true).toOption =
      some [Event.Staked 2 7] := by
  obtain ⟨s2, evs, hf⟩ :
      ∃ a b, finalize approvableState 1 150 = Except.ok (a, b) := ⟨_, _, rfl⟩
  obtain ⟨s3, tr3, ev3, hs⟩ :
      ∃ a b c, stake scenarioBState 2 7 true = Except.ok (a, b, c) :=
    ⟨_, _, _, rfl⟩
  have hstat : (s2.proposals 1).status = ProposalStatus.Approved := by
    have hq1 := ((finalize_ok_inv hf).2.2.2.2 (by decide)).1 (by decide)
    rw [hq1.1]
    simp [Function.update_same]
  have h7f := ((state_changing_calls_emit_events approvableState 1 1 7 150
    ActionType.SCALE_UP [] 0 0 0 true true).2.2.1 s2 evs hf).1 hstat
  have h7s := (state_changing_calls_emit_events scenarioBState 2 1 7 150
    ActionType.SCALE_UP [] 0 0 0 true true).2.2.2.2.1 s3 tr3 ev3 hs
  rw [hf, hs]
  simp only [Except.toOption, Option.map, hstat, h7f, h7s]
  exact ⟨rfl, trivial⟩

/-- A freshly deployed contract satisfies the stake-sum invariant. -/
lemma stakesInvariant_deploy {g m q v d : Nat} {s0 : State}
    (h : deploy g m q v d = Except.ok s0) : stakesInvariant s0 := by
  simp only [deploy] at h
  split at h
  · exact Except.noConfusion h
  · split at h
    · simp only [Except.ok.injEq] at h
      subst h
      intro A hA
      simp
    · exact Except.noConfusion h

/-- Each staking call (successful or reverting) preserves the stake-sum
invariant. -/
lemma stakesInvariant_preserved (s : State) (h : stakesInvariant s)
    (op : StakeOp) : stakesInvariant (applyStakeOp s op) := by
  cases op with
  | stakeOp sender amount transferOk =>
    simp only [applyStakeOp]
    cases hst : stake s sender amount transferOk with
    | error e => exact h
    | ok r =>
      obtain ⟨hamt, -, hs2, -, -⟩ := stake_ok_inv
        (show stake s sender amount transferOk = Except.ok (r.1, r.2.1, r.2.2) by
          rw [hst])
      show stakesInvariant r.1
      rw [hs2]
      intro A hA
      have hsend : sender ∈ A := hA sender (by
        show Function.update s.stakes sender (s.stakes sender + amount) sender ≠ 0
        rw [Function.update_same]
        omega)
      have hsub : ∀ a, s.stakes a ≠ 0 → a ∈ A := by
        intro a ha
        by_cases hcase : a = sender
        · exact hcase ▸ hsend
        · refine hA a ?_
          show Function.update s.stakes sender (s.stakes sender + amount) a ≠ 0
          rw [Function.update_noteq hcase]
          exact ha
      have hsum := h A hsub
      have herase := Finset.add_sum_erase A s.stakes hsend
      rw [Finset.erase_eq] at herase
      show s.totalStaked + amount =
        ∑ a in A, Function.update s.stakes sender (s.stakes sender + amount) a
      rw [Finset.sum_update_of_mem hsend]
      omega
  | unstakeOp sender amount transferOk =>
    simp only [applyStakeOp]
    cases hst : unstake s sender amount transferOk with
    | error e => exact h
    | ok r =>
      obtain ⟨hamt, hle, -, hs2, -, -⟩ := unstake_ok_inv
        (show unstake s sender amount transferOk = Except.ok (r.1, r.2.1, r.2.2) by
          rw [hst])
      show stakesInvariant r.1
      rw [hs2]
      intro A hA
      by_cases hmem : sender ∈ A
      · have hsub : ∀ a, s.stakes a ≠ 0 → a ∈ A := by
          intro a ha
          by_cases hcase : a = sender
          · exact hcase ▸ hmem
          · refine hA a ?_
            show Function.update s.stakes sender (s.stakes sender - amount) a ≠ 0
            rw [Function.update_noteq hcase]
            exact ha
        have hsum := h A hsub
        have herase := Finset.add_sum_erase A s.stakes hmem
        rw [Finset.erase_eq] at herase
        show s.totalStaked - amount =
          ∑ a in A, Function.update s.stakes sender (s.stakes sender - amount) a
        rw [Finset.sum_update_of_mem hmem]
        omega
      · have hzero : s.stakes sender - amount = 0 := by
          by_contra hnz
          refine hmem (hA sender ?_)
          show Function.update s.stakes sender (s.stakes sender - amount) sender ≠ 0
          rw [Function.update_same]
          exact hnz
        have hsub : ∀ a, s.stakes a ≠ 0 → a ∈ insert sender A := by
          intro a ha
          by_cases hcase : a = sender
          · exact hcase ▸ Finset.mem_insert_self sender A
          · refine Finset.mem_insert_of_mem (hA a ?_)
            show Function.update s.stakes sender (s.stakes sender - amount) a ≠ 0
            rw [Function.update_noteq hcase]
            exact ha
        have hsum := h (insert sender A) hsub
        have hBsum : ∑ a in insert sender A, s.stakes a =
            s.stakes sender + ∑ a in A, s.stakes a := Finset.sum_insert hmem
        have hAeq : ∑ a in A, Function.update s.stakes sender
              (s.stakes sender - amount) a = ∑ a in A, s.stakes a := by
          refine Finset.sum_congr rfl ?_
          intro a haA
          have hcase : a ≠ sender := fun heq => hmem (heq ▸ haA)
          rw [Function.update_noteq hcase]
        show s.totalStaked - amount =
          ∑ a in A, Function.update s.stakes sender (s.stakes sender - amount) a
        rw [hAeq]
        omega

/-- The stake-sum invariant holds after any sequence of staking calls. -/
lemma runStakeOps_invariant (s : State) (h : stakesInvariant s)
    (ops : List StakeOp) : stakesInvariant (runStakeOps s ops) := by
  induction ops generalizing s with
  | nil => exact h
  | cons op rest ih => exact ih (applyStakeOp s op) (stakesInvariant_preserved s h op)

/-- C10: after every sequence of stake/unstake calls from a freshly deployed
contract, `totalStaked` equals the sum of `stakes[a]` over all addresses
(formally: over every finite set containing all addresses with nonzero
stake); and `unstake` fails with "Insufficient stake" whenever the requested
amount exceeds the caller's recorded stake, so no stake balance underflows
and the invariant is preserved by every operation. -/
theorem totalStaked_eq_sum_of_stakes (g m q v d : Nat) (s0 : State)
    (hdep : deploy g m q v d = Except.ok s0) (ops : List StakeOp) :
    (∀ A : Finset Nat, (∀ a, (runStakeOps s0 ops).stakes a ≠ 0 → a ∈ A) →
      (runStakeOps s0 ops).totalStaked =
        ∑ a in A, (runStakeOps s0 ops).stakes a) ∧
    (∀ t : State, ∀ sender amount : Nat, ∀ transferOk : Bool,
      t.stakes sender < amount →
      unstake t sender amount transferOk = Except.error "Insufficient stake") := by
  constructor
  · exact runStakeOps_invariant s0 (stakesInvariant_deploy hdep) ops
  · intro t sender amount transferOk hlt
    have h0 : 0 < amount := Nat.lt_of_le_of_lt (Nat.zero_le _) hlt
    simp [unstake, h0, Nat.not_le.mpr hlt]

/-- Witness for C10: deploying and staking 5 from address 1 gives
`totalStaked = 5 = ∑ stakes` over `{1}`, and unstaking 5 from the fresh
state (stake 0) fails with "Insufficient stake". -/
theorem totalStaked_eq_sum_of_stakes_witness :
    deploy 1 0 6700 100 9 = Except.ok deployedState ∧
    (runStakeOps deployedState [StakeOp.stakeOp 1 5 true]).totalStaked =
      ∑ a in ({1} : Finset Nat),
        (runStakeOps deployedState [StakeOp.stakeOp 1 5 true]).stakes a ∧
    deployedState.stakes 1 < 5 ∧
    unstake deployedState 1 5 true = Except.error "Insufficient stake" := by
  have hdep : deploy 1 0 6700 100 9 = Except.ok deployedState := rfl
  have h := totalStaked_eq_sum_of_stakes 1 0 6700 100 9 deployedState hdep
    [StakeOp.stakeOp 1 5 true]
  refine ⟨hdep, h.1 {1} ?_, by decide, h.2 deployedState 1 5 true (by decide)⟩
  intro a ha
  by_cases hcase : a = 1
  · simp [hcase]
  · exfalso
    apply ha
    show Function.update deployedState.stakes 1 (deployedState.stakes 1 + 5) a = 0
    rw [Function.update_noteq hcase]
    rfl

end PoSEVoting

namespace Estimator

/-- The sup norm is nonnegative. -/
lemma supNorm_nonneg (v : Fin 5 → ℚ) : 0 ≤ supNorm v := by
  unfold supNorm
  calc (0 : ℚ) ≤ max |v 4| 0 := le_max_right _ _
    _ ≤ max |v 3| (max |v 4| 0) := le_max_right _ _
    _ ≤ max |v 2| (max |v 3| (max |v 4| 0)) := le_max_right _ _
    _ ≤ max |v 1| (max |v 2| (max |v 3| (max |v 4| 0))) := le_max_right _ _
    _ ≤ max |v 0| (max |v 1| (max |v 2| (max |v 3| (max |v 4| 0)))) :=
        le_max_right _ _

/-- Every component is bounded by the sup norm. -/
lemma abs_le_supNorm (v : Fin 5 → ℚ) (i : Fin 5) : |v i| ≤ supNorm v := by
  unfold supNorm
  fin_cases i
  · exact le_max_left _ _
  · exact le_trans (le_max_left _ _) (le_max_right _ _)
  · exact le_trans (le_trans (le_max_left _ _) (le_max_right _ _))
      (le_max_right _ _)
  · exact le_trans (le_trans (le_trans (le_max_left _ _) (le_max_right _ _))
      (le_max_right _ _)) (le_max_right _ _)
  · exact le_trans (le_trans (le_trans (le_trans (le_max_left _ _)
      (le_max_right _ _)) (le_max_right _ _)) (le_max_right _ _))
      (le_max_right _ _)

/-- A componentwise bound gives a sup-norm bound. -/
lemma supNorm_le {v : Fin 5 → ℚ} {c : ℚ} (h : ∀ i, |v i| ≤ c) :
    supNorm v ≤ c := by
  have h0 : (0 : ℚ) ≤ c := le_trans (abs_nonneg (v 0)) (h 0)
  unfold supNorm
  exact max_le (h 0) (max_le (h 1) (max_le (h 2) (max_le (h 3)
    (max_le (h 4) h0))))

/-- Counterexample to C8 as stated: the error norm is not non-increasing
(the model being deterministic, "in expectation" is the value itself).
Starting exactly at the target (`x0 = x* = 0`) under innovation bounded by 1
(`z ≡ 1`) and gain 1/2, the error norm rises from 0 to 1/2 in one step. -/
theorem estimator_error_can_increase_cex :
    supNorm (fun i => onesMeasurement 0 i - zeroVec i) ≤ 1 ∧
    supNorm (fun i => estimate constGain onesMeasurement zeroVec 0 i - zeroVec i) <
      supNorm (fun i => estimate constGain onesMeasurement zeroVec 1 i - zeroVec i) := by
  constructor
  · refine supNorm_le ?_
    intro i
    norm_num [onesMeasurement, zeroVec]
  · have h1 : |estimate constGain onesMeasurement zeroVec 1 0 - zeroVec 0| ≤
        supNorm (fun i => estimate constGain onesMeasurement zeroVec 1 i - zeroVec i) :=
      abs_le_supNorm _ 0
    have h2 : |estimate constGain onesMeasurement zeroVec 1 0 - zeroVec 0| =
        1 / 2 := by
      norm_num [estimate, constGain, onesMeasurement, zeroVec]
    have h0 : supNorm
        (fun i => estimate constGain onesMeasurement zeroVec 0 i - zeroVec i) = 0 := by
      norm_num [supNorm, estimate, zeroVec]
    rw [h0]
    rw [h2] at h1
    linarith

/-- C8 (amended): for the spec-modelled estimator with diagonal gain bounded
in `[kmin, kmax] ⊂ (0, 1)` and innovation input bounded by `emax`
(`‖z(t) - x*‖ ≤ emax` for all `t`), the error satisfies the exponential
band bound `‖x(t) - x*‖ ≤ (1 - kmin)^t · ‖x(0) - x*‖ + emax` — that is,
`C = 1`, `e^(-λ) = 1 - kmin` with `λ = -ln(1 - kmin) > 0`, and steady-state
error `ε_ss = emax`; the error converges into the noise band but need not be
monotonically non-increasing. -/
theorem estimator_exponential_error_band (K : Nat → Fin 5 → ℚ)
    (z : Nat → Fin 5 → ℚ) (x0 xstar : Fin 5 → ℚ) (kmin kmax emax : ℚ)
    (hk0 : 0 < kmin) (hk1 : kmax < 1)
    (hK : ∀ t i, kmin ≤ K t i ∧ K t i ≤ kmax)
    (hz : ∀ t, supNorm (fun i => z t i - xstar i) ≤ emax) :
    ∀ t, supNorm (fun i => estimate K z x0 t i - xstar i) ≤
      (1 - kmin) ^ t * supNorm (fun i => x0 i - xstar i) + emax := by
  have hem : 0 ≤ emax := le_trans (supNorm_nonneg _) (hz 0)
  have hE0 : 0 ≤ supNorm (fun i => x0 i - xstar i) := supNorm_nonneg _
  have hkk : kmin ≤ kmax := le_trans (hK 0 0).1 (hK 0 0).2
  have hr0 : 0 ≤ 1 - kmin := by linarith
  intro t
  induction t with
  | zero =>
    show supNorm (fun i => x0 i - xstar i) ≤
      (1 - kmin) ^ 0 * supNorm (fun i => x0 i - xstar i) + emax
    rw [pow_zero, one_mul]
    linarith
  | succ t ih =>
    refine supNorm_le ?_
    intro i
    have hai := hK t i
    have ha0 : 0 ≤ K t i := le_trans (le_of_lt hk0) hai.1
    have h1K : 0 ≤ 1 - K t i := by linarith [hai.2]
    have hrK : 1 - K t i ≤ 1 - kmin := by linarith [hai.1]
    have hzi : |z t i - xstar i| ≤ emax :=
      le_trans (abs_le_supNorm (fun j => z t j - xstar j) i) (hz t)
    have hei : |estimate K z x0 t i - xstar i| ≤
        (1 - kmin) ^ t * supNorm (fun j => x0 j - xstar j) + emax :=
      le_trans (abs_le_supNorm (fun j => estimate K z x0 t j - xstar j) i) ih
    have hrt : 0 ≤ (1 - kmin) ^ t := pow_nonneg hr0 t
    have hstep : estimate K z x0 (t + 1) i - xstar i =
        (1 - K t i) * (estimate K z x0 t i - xstar i) +
          K t i * (z t i - xstar i) := by
      show estimate K z x0 t i + K t i * (z t i - estimate K z x0 t i) -
        xstar i = _
      ring
    show |estimate K z x0 (t + 1) i - xstar i| ≤
      (1 - kmin) ^ (t + 1) * supNorm (fun j => x0 j - xstar j) + emax
    rw [hstep]
    calc |(1 - K t i) * (estimate K z x0 t i - xstar i) +
          K t i * (z t i - xstar i)|
        ≤ |(1 - K t i) * (estimate K z x0 t i - xstar i)| +
          |K t i * (z t i - xstar i)| := abs_add _ _
      _ = (1 - K t i) * |estimate K z x0 t i - xstar i| +
          K t i * |z t i - xstar i| := by
            rw [abs_mul, abs_mul, abs_of_nonneg h1K, abs_of_nonneg ha0]
      _ ≤ (1 - K t i) *
            ((1 - kmin) ^ t * supNorm (fun j => x0 j - xstar j) + emax) +
          K t i * emax :=
            add_le_add (mul_le_mul_of_nonneg_left hei h1K)
              (mul_le_mul_of_nonneg_left hzi ha0)
      _ = (1 - K t i) * ((1 - kmin) ^ t * supNorm (fun j => x0 j - xstar j)) +
          emax := by ring
      _ ≤ (1 - kmin) * ((1 - kmin) ^ t * supNorm (fun j => x0 j - xstar j)) +
          emax :=
            add_le_add_right
              (mul_le_mul_of_nonneg_right hrK (mul_nonneg hrt hE0)) emax
      _ = (1 - kmin) ^ (t + 1) * supNorm (fun j => x0 j - xstar j) + emax := by
            ring

/-- Witness for C8's amended theorem: constant gain 1/2 within the band
`[1/4, 1/2]`, observations pinned to the target (`emax = 0`), two steps. -/
theorem estimator_exponential_error_band_witness :
    (0 : ℚ) < 1 / 4 ∧ (1 / 2 : ℚ) < 1 ∧
    supNorm (fun i => estimate constGain onesMeasurement zeroVec 2 i - oneVec i) ≤
      (1 - 1 / 4) ^ 2 * supNorm (fun i => zeroVec i - oneVec i) + 0 := by
  refine ⟨by norm_num, by norm_num, ?_⟩
  exact estimator_exponential_error_band constGain onesMeasurement zeroVec
    oneVec (1 / 4) (1 / 2) 0 (by norm_num) (by norm_num)
    (fun t i => ⟨by norm_num [constGain], by norm_num [constGain]⟩)
    (fun t => by
      refine le_of_eq ?_
      show supNorm (fun i => onesMeasurement t i - oneVec i) = 0
      norm_num [supNorm, onesMeasurement, oneVec])
    2

end Estimator
